import Mathlib

/-!
Shallow embedding of the realtime-buncombe pipeline (remote raster
synchronizer and grid feature engine) and proofs about it.

Conventions used throughout:
* Calendar dates are integers (one unit = one day), so `d - 1` is the
  previous day.
* Raster cell values are rationals; a missing value (NumPy NaN after
  no-data substitution) is `Option.none`.
* Python dict metadata is a total function from field name to optional
  string value (`dict.get` returns `None` for absent keys); an absent or
  empty metadata dict is `Option.none` at the outer level.
-/

namespace Buncombe

/-! ## Sync metadata comparison (app/download_prism_daily.py) -/

/-- A metadata dict as read from a `.meta.json` sidecar or a HEAD probe:
field name to optional value (`None` values are representable). -/
def MetaDict : Type := String → Option String

/-- Embedding of `needs_update_by_meta(local_meta, remote_meta, fields)`:
`if not remote_meta: return False`; `if not local_meta: return True`;
then `True` iff some configured field differs, else `False`. -/
def needs_update_by_meta (local_meta remote_meta : Option MetaDict)
    (fields : List String) : Bool :=
  match remote_meta with
  | none => false
  | some rm =>
    match local_meta with
    | none => true
    | some lm => fields.any (fun f => decide (rm f ≠ lm f))

/-- Pointwise update of a metadata dict at one field. -/
def MetaDict.set (m : MetaDict) (f : String) (v : Option String) : MetaDict :=
  fun s => if s = f then v else m s

/-- A sample concrete metadata dict used in closed witnesses. -/
def metaEx : MetaDict :=
  fun s => if s = "etag" then some "abc" else none

/-! ## Streamed fetch with retry (app/download_prism_daily.py) -/

/-- A `requests.get` response: HTTP status, the chunk sequence
`iter_content` would yield on a clean read, whether iteration runs to
completion, and (when it does not) how many chunks arrive before the
stream raises. Bytes are modelled as naturals. -/
structure Resp where
  status : ℕ
  chunks : List (List ℕ)
  streamOk : Bool
  okChunks : ℕ
deriving DecidableEq, Repr

/-- What one run of the retry loop did: the sleeps performed (in
seconds, in order), how many times `requests.get` was invoked, and the
outcome. `outcome = none` models the Python function falling off the
`for` loop and returning `None` (possible only when `retries = 0`). -/
structure RetryOut where
  sleeps : List ℕ
  calls : ℕ
  outcome : Option (Except ℕ Resp)
deriving Repr

/-- The loop body of `retry_get` from iteration `i` on. `fetch j` is the
environment: the result of the `j`-th `requests.get(url, stream=True,
timeout=timeout)` call (the url and timeout are baked into `fetch`;
errors are numeric codes). Mirrors:
`for i in range(retries): try: return requests.get(...)
 except: if i == retries - 1: raise; time.sleep(backoff * (i + 1))`. -/
def retry_get_from (fetch : ℕ → Except ℕ Resp) (backoff retries i : ℕ) :
    RetryOut :=
  if _h : retries ≤ i then ⟨[], 0, none⟩
  else
    match fetch i with
    | .ok r => ⟨[], 1, some (.ok r)⟩
    | .error e =>
      if i = retries - 1 then ⟨[], 1, some (.error e)⟩
      else
        let rest := retry_get_from fetch backoff retries (i + 1)
        ⟨backoff * (i + 1) :: rest.sleeps, rest.calls + 1, rest.outcome⟩
  termination_by retries - i

/-- Embedding of `retry_get(url, timeout, retries, backoff)`. -/
def retry_get (fetch : ℕ → Except ℕ Resp) (retries backoff : ℕ) : RetryOut :=
  retry_get_from fetch backoff retries 0

/-- The two on-disk names `download_zip` touches for one date: the
temporary `.zip.tmp` file and the final `.zip` name. `none` = file
absent. -/
structure ZipFS where
  tmp : Option (List ℕ)
  final : Option (List ℕ)
deriving DecidableEq, Repr

/-- Errors `download_zip` can raise. -/
inductive DlErr
  | netErr (e : ℕ)
  | noneResponse
  | badStatus (code : ℕ)
  | streamErr
deriving DecidableEq, Repr

/-- Embedding of `download_zip(cfg, d)` acting on the two file slots:
run `retry_get`, `raise_for_status` (4xx/5xx raise), stream chunks into
the `.zip.tmp` file, and `tmp.replace(zpath)` on completion. On a
mid-stream failure the partial bytes stay in `tmp` (the `with` block
closes the file) and the final name is untouched. -/
def download_zip (fetch : ℕ → Except ℕ Resp) (retries backoff : ℕ)
    (fs : ZipFS) : ZipFS × Except DlErr (List ℕ) :=
  match (retry_get fetch retries backoff).outcome with
  | none => (fs, .error .noneResponse)
  | some (.error e) => (fs, .error (.netErr e))
  | some (.ok r) =>
    if 400 ≤ r.status then (fs, .error (.badStatus r.status))
    else if r.streamOk then
      let content := r.chunks.flatten
      (⟨none, some content⟩, .ok content)
    else
      let content := (r.chunks.take r.okChunks).flatten
      (⟨some content, fs.final⟩, .error .streamErr)

/-! ## The local rainfall store
(shared by app/rainfall_features.py and app/predict_daily_triple.py)

File names other than the date-bearing stem are irrelevant to every
property proved here, so they are modelled as naturals. A member of a
zip archive carries a flag for whether its name ends in `.tif`
(case-insensitively), which is the only thing the code inspects. -/

/-- One member of a zip archive, as seen by `zipfile.namelist()`. -/
structure ZipMember where
  name : ℕ
  isTif : Bool
deriving DecidableEq, Repr

/-- Everything the store may hold for one date `prism_ppt_us_30s_YYYYMMDD`:
an extracted folder (possibly empty of `.tif` files), a `.zip` archive
with its member list, a bare `.tif` file, and a `.meta.json` sidecar. -/
structure DayFiles where
  day : ℤ
  folderExists : Bool
  folderTifs : List ℕ
  zipExists : Bool
  zipMembers : List ZipMember
  bareTif : Bool
  metaExists : Bool
deriving DecidableEq, Repr

/-- The rainfall directory: the per-date records (dates with no record
have no files at all). -/
abbrev Store := List DayFiles

/-- The empty record for a date. -/
def DayFiles.empty (day : ℤ) : DayFiles := ⟨day, false, [], false, [], false, false⟩

/-- The files present for a given date (absent dates give the empty
record). -/
def dayFiles (s : Store) (day : ℤ) : DayFiles :=
  (s.find? (fun f => f.day == day)).getD (DayFiles.empty day)

/-- Whether a date contributes an entry whose stem parses as
`prism_ppt_us_30s_YYYYMMDD`: its extracted folder name, its `.zip` stem
or its bare `.tif` stem. A `.meta.json` sidecar does not (its `Path.stem`
keeps the trailing `.meta`, which fails the date parse). -/
def dayPresent (f : DayFiles) : Bool := f.folderExists || f.zipExists || f.bareTif

/-- Embedding of `available_dates()` (identical bodies in
app/rainfall_features.py and `_available_dates` in
app/predict_daily_triple.py): the set of dates whose stem parses,
sorted ascending. -/
def available_dates (s : Store) : List ℤ :=
  (((s.filter dayPresent).map DayFiles.day).dedup).insertionSort (· ≤ ·)

/-- Embedding of `resolve_target_date(requested)` (app/rainfall_features.py;
`_resolve_target_date` in app/predict_daily_triple.py has the identical
body) over the sorted date list: `none` models the
`FileNotFoundError` raised on an empty store. -/
def resolve_target_date (dates : List ℤ) (requested : ℤ) : Option ℤ :=
  match dates with
  | [] => none
  | d0 :: _ =>
    if requested < d0 then some d0
    else
      match dates.reverse.find? (fun day => decide (day ≤ requested)) with
      | some day => some day
      | none => dates.getLast?

/-- A resolved raster path, keeping track of which of the three lookup
tiers produced it. -/
inductive RasterPath
  | folderTif (day : ℤ) (name : ℕ)
  | zipMember (day : ℤ) (member : ℕ)
  | zipMemberStamped (day : ℤ)
  | bareTif (day : ℤ)
deriving DecidableEq, Repr

namespace PredictDailyTriple

/-- Embedding of `_resolve_day_path(day)` from app/predict_daily_triple.py:
first `.tif` (in sorted order) inside the extracted folder, else the
fixed `zip://...!prism_ppt_us_30s_{stamp}.tif` archive-internal path if
the `.zip` exists, else the bare `.tif`, else absent. -/
def _resolve_day_path (s : Store) (day : ℤ) : Option RasterPath :=
  let f := dayFiles s day
  match (if f.folderExists then f.folderTifs.insertionSort (· ≤ ·) else []) with
  | t :: _ => some (.folderTif day t)
  | [] =>
    if f.zipExists then some (.zipMemberStamped day)
    else if f.bareTif then some (.bareTif day)
    else none

/-- Embedding of `_collect_day_paths(target, window)`: resolve the
target date, then pair each of the `window` consecutive days ending at
the resolved date (oldest first) with its resolved path. `none` models
the `FileNotFoundError` from an empty store. -/
def _collect_day_paths (s : Store) (target : ℤ) (window : ℕ) :
    Option (List (ℤ × Option RasterPath)) :=
  match resolve_target_date (available_dates s) target with
  | none => none
  | some resolved =>
    some ((List.range window).map (fun i =>
      let day := resolved - ((window - 1 - i : ℕ) : ℤ)
      (day, _resolve_day_path s day)))

end PredictDailyTriple

namespace RainfallFeatures

/-- Embedding of `_resolve_day_path(day)` from app/rainfall_features.py:
first `.tif` (in sorted order) inside the extracted folder, else the
first archive member whose lower-cased name ends in `.tif` if the `.zip`
exists, else the bare `.tif`, else absent. -/
def _resolve_day_path (s : Store) (day : ℤ) : Option RasterPath :=
  let f := dayFiles s day
  match (if f.folderExists then f.folderTifs.insertionSort (· ≤ ·) else []) with
  | t :: _ => some (.folderTif day t)
  | [] =>
    match (if f.zipExists then f.zipMembers.find? (fun m => m.isTif) else none) with
    | some m => some (.zipMember day m.name)
    | none => if f.bareTif then some (.bareTif day) else none

/-- A decoded raster band (`src.read(1)` as float32, values as
rationals; `_load_stack` does no no-data substitution). -/
abbrev Raster := List (List ℚ)

/-- Errors `_load_stack` can raise: the `FileNotFoundError` for an
unresolvable target date, or a propagated raster read failure. -/
inductive StackErr
  | noRasterForTarget (day : ℤ)
  | readErr (e : ℕ)
deriving DecidableEq, Repr

/-- An all-zero band of the same shape as the template
(`np.zeros_like(template)`). -/
def zerosLike (template : Raster) : Raster :=
  template.map (fun row => row.map (fun _ => 0))

/-- Embedding of `_load_stack(target, window)`: resolve the target's own
path (raising `FileNotFoundError` if absent), read it as the template,
then read the `window` consecutive days ending at `target` oldest first,
substituting an all-zero band for unresolvable days; a read failure on a
resolvable day propagates. `read` is the raster-opening capability. -/
def _load_stack (read : RasterPath → Except ℕ Raster) (s : Store)
    (target : ℤ) (window : ℕ) : Except StackErr (List Raster) :=
  match _resolve_day_path s target with
  | none => .error (.noRasterForTarget target)
  | some refPath =>
    match read refPath with
    | .error e => .error (.readErr e)
    | .ok template =>
      (List.range window).mapM (fun i =>
        let day := target - ((window - 1 - i : ℕ) : ℤ)
        match _resolve_day_path s day with
        | none => Except.ok (zerosLike template)
        | some p =>
          match read p with
          | .error e => Except.error (StackErr.readErr e)
          | .ok band => Except.ok band)

end RainfallFeatures

namespace PredictDailyTriple

/-! ## Window aggregation (app/predict_daily_triple.py)

`_compute_rain_features` acts pointwise per cell (NumPy `axis=0`
reductions), so the stack is modelled as one cell's column of sampled
values, oldest first; `none` is NaN (a no-data sample). -/

/-- One cell's column of the window stack, oldest first. -/
abbrev CellStack := List (Option ℚ)

/-- `stack[-n:] if stack.shape[0] >= n else stack`. -/
def _subset (stack : CellStack) (n : ℕ) : CellStack :=
  if n ≤ stack.length then stack.drop (stack.length - n) else stack

/-- `np.nansum` along the stack axis at one cell: NaNs count as zero (an
all-NaN column sums to `0`). -/
def nansum (l : CellStack) : ℚ :=
  (l.map (fun x => x.getD 0)).sum

/-- `np.nanmax` along the stack axis at one cell, combined with the
explicit `out[all_nan] = np.nan` fix-up: the maximum of the non-NaN
values, or NaN (`none`) when every value is NaN. -/
def nanmax (l : CellStack) : Option ℚ :=
  match l.filterMap id with
  | [] => none
  | v :: vs => some (vs.foldl max v)

/-- `_sum_last(n)` inside `_compute_rain_features`. -/
def _sum_last (stack : CellStack) (n : ℕ) : ℚ := nansum (_subset stack n)

/-- `_max_last(n)` inside `_compute_rain_features`. -/
def _max_last (stack : CellStack) (n : ℕ) : Option ℚ := nanmax (_subset stack n)

/-- The six aggregates returned by `_compute_rain_features` at one cell.
Sums are plain values (`np.nansum` never yields NaN); `R1d` and the
maxima can be NaN. -/
structure RainFeatures where
  R1d : Option ℚ
  R3d : ℚ
  R7d : ℚ
  R30d : ℚ
  Max_Rainfall_3day : Option ℚ
  Max_Rainfall_30day : Option ℚ
deriving DecidableEq, Repr

/-- Embedding of `_compute_rain_features(stack)` at one cell
(`stack[-1]` on an empty stack would raise in Python; `getLast?.join`
returns `none` there, a case no claim uses — on any nonempty stack it is
exactly the newest value). -/
def _compute_rain_features (stack : CellStack) : RainFeatures where
  R1d := stack.getLast?.join
  R3d := _sum_last stack 3
  R7d := _sum_last stack 7
  R30d := _sum_last stack 30
  Max_Rainfall_3day := _max_last stack 3
  Max_Rainfall_30day := _max_last stack 30

/-! ## Region mask and the feature table (app/predict_daily_triple.py) -/

/-- A boolean grid, row-major: one inner list per raster row. -/
abbrev Mask := List (List Bool)

/-- Row-major index extraction, the semantics of
`rows, cols = np.where(mask)`: `(row, col)` pairs of the true cells,
rows ascending, columns ascending within a row. `i`/`j` are the indices
of the first row/column of the remaining grid. -/
def whereTrueRow (i j : ℕ) : List Bool → List (ℕ × ℕ)
  | [] => []
  | b :: bs => (if b then [(i, j)] else []) ++ whereTrueRow i (j + 1) bs

/-- Row-major index extraction over the whole grid, starting at row `i`. -/
def whereTrueFrom (i : ℕ) : Mask → List (ℕ × ℕ)
  | [] => []
  | row :: rest => whereTrueRow i 0 row ++ whereTrueFrom (i + 1) rest

/-- `np.where(mask)` as a list of `(row, col)` pairs. -/
def npWhere (mask : Mask) : List (ℕ × ℕ) := whereTrueFrom 0 mask

/-- Number of true cells of the mask (`mask.sum()`). -/
def maskCount (mask : Mask) : ℕ :=
  (mask.map (fun row => row.count true)).sum

/-- Whether cell `(i, j)` exists and is true. -/
def maskAt (mask : Mask) (i j : ℕ) : Bool :=
  match mask[i]? with
  | none => false
  | some row => row[j]?.getD false

/-- Embedding of `_grid_centers(reference_ds, mask)`: the true cells in
`np.where` order, each paired with the projected centre coordinate
`transform * (col + 0.5, row + 0.5)`; `transform` stands for the affine
transform of the reference raster. -/
def _grid_centers (transform : ℚ × ℚ → ℚ × ℚ) (mask : Mask) :
    List ((ℕ × ℕ) × (ℚ × ℚ)) :=
  (npWhere mask).map (fun rc =>
    (rc, transform ((rc.2 : ℚ) + 1 / 2, (rc.1 : ℚ) + 1 / 2)))

/-- One row of the `results` table built in `predict`: the cell indices,
its projected centre, and the per-cell payload (rainfall aggregates,
static attributes, model probabilities), abstracted as `α`. -/
structure FeatureRow (α : Type) where
  row : ℕ
  col : ℕ
  x : ℚ
  y : ℚ
  cellData : α
deriving Repr

/-- The `results` table assembled in `predict`: one row per `np.where`
position, in order; every column is indexed by that position, so the
payload is a function of the cell and its centre. -/
def predictRows (transform : ℚ × ℚ → ℚ × ℚ) (mask : Mask)
    (cellData : (ℕ × ℕ) → (ℚ × ℚ) → α) : List (FeatureRow α) :=
  (_grid_centers transform mask).map (fun c =>
    ⟨c.1.1, c.1.2, c.2.1, c.2.2, cellData c.1 c.2⟩)

/-! ## Region mask construction -/

/-- One feature of the county shapefile: its `GEOID` and its geometry
(opaque id; rasterio/geopandas geometry handling is external). -/
structure CountyFeature where
  geoid : String
  geom : ℕ
deriving DecidableEq, Repr

/-- Errors `_build_mask` can raise. -/
inductive MaskErr
  | shapefileMissing
  | polygonNotFound
deriving DecidableEq, Repr

/-- Embedding of `_build_mask(reference_ds)`: missing shapefile raises;
`GEOID == "37021"` absent raises; otherwise the polygon is reprojected
to the reference CRS and rasterized over the reference shape/transform.
`rasterize` is that external capability (geometry id to boolean grid);
its result is returned as-is, whatever it contains. -/
def _build_mask (shpExists : Bool) (counties : List CountyFeature)
    (rasterize : ℕ → Mask) : Except MaskErr Mask :=
  if ¬shpExists then .error .shapefileMissing
  else
    match counties.filter (fun c => c.geoid == "37021") with
    | [] => .error .polygonNotFound
    | c :: _ => .ok (rasterize c.geom)

/-! ## Static attribute sampling (app/predict_daily_triple.py) -/

/-- Python `round(t)` on a rational: round half to even. -/
def roundHalfEven (t : ℚ) : ℤ :=
  let f := ⌊t⌋
  let r := t - f
  if r < 1 / 2 then f
  else if 1 / 2 < r then f + 1
  else if f % 2 = 0 then f else f + 1

/-- Python `round(x, 1)`: one decimal place. -/
def pyRound1 (q : ℚ) : ℚ := (roundHalfEven (q * 10) : ℚ) / 10

/-- The Static Attribute Index built by `_build_static_index`: a dict
from rounded `(x, y)` keys to `(elevation, slope, soil_depth)`. -/
abbrev StaticIndex := (ℚ × ℚ) → Option (ℚ × ℚ × ℚ)

/-- One output record of `_sample_static_attributes` (per coordinate):
the three attributes (`none` = NaN) and the int8 `(soil >= 200)` flag
(NaN compares false, giving 0). -/
structure StaticRow where
  elev : Option ℚ
  slope : Option ℚ
  soil : Option ℚ
  soilFlag : ℤ
deriving DecidableEq, Repr

/-- Embedding of `_sample_static_attributes(static_index, xs, ys)`:
per coordinate, look up `(round(x, 1), round(y, 1))`; a miss yields the
`(nan, nan, nan)` default, and `Soil_Depth_Deep200_Flag` is
`(soil >= 200).astype(int8)` computed on the filled arrays. -/
def _sample_static_attributes (static_index : StaticIndex)
    (coords : List (ℚ × ℚ)) : List StaticRow :=
  coords.map (fun c =>
    match static_index (pyRound1 c.1, pyRound1 c.2) with
    | none => ⟨none, none, none, 0⟩
    | some v =>
      ⟨some v.1, some v.2.1, some v.2.2, if 200 ≤ v.2.2 then 1 else 0⟩)

end PredictDailyTriple

namespace RainfallFeatures

/-- Embedding of `_load_mask(meta)` from app/rainfall_features.py: a
missing shapefile or a missing `GEOID == "37021"` polygon falls back to
an all-true mask of the reference shape; otherwise the rasterized
polygon is returned, whatever it contains. -/
def _load_mask (shpExists : Bool) (counties : List PredictDailyTriple.CountyFeature)
    (rasterize : ℕ → PredictDailyTriple.Mask) (height width : ℕ) :
    PredictDailyTriple.Mask :=
  if ¬shpExists then List.replicate height (List.replicate width true)
  else
    match counties.filter (fun c => c.geoid == "37021") with
    | [] => List.replicate height (List.replicate width true)
    | c :: _ => rasterize c.geom

end RainfallFeatures

/-! ## Per-date synchronization (app/download_prism_daily.py, sync_day) -/

/-- The configuration fields `sync_day` consults. -/
structure SyncCfg where
  compare_fields : List String
  extract : Bool
  delete_zip_after_extract : Bool
  verify_tif : Bool

/-- The on-disk files for the date being synchronized: the `.zip`
archive (content modelled by an id), the `.meta.json` sidecar (`none`
also covers an unparsable or empty sidecar, which `load_meta` turns into
the falsy `{}`), the extracted folder, and whether the expected decoded
`.tif` inside it exists. -/
structure DayState where
  zip : Option ℕ
  meta : Option MetaDict
  folderExists : Bool
  folderTif : Bool

/-- The environment of one `sync_day` call: the `head_remote` outcome
(`error` = non-404 HTTP failure raised, `ok none` = 404), the outcome a
`download_zip` call would have (content id or raised error), whether
extracting a given archive produces the expected `.tif`, and the
`synced_utc` timestamp. -/
structure SyncEnv where
  remote : Except ℕ (Option MetaDict)
  fetchZip : Except ℕ ℕ
  zipHasTif : ℕ → Bool
  now : String

/-- Observable actions `sync_day` performs, in order. -/
inductive SyncEffect
  | deletedZip
  | deletedMeta
  | deletedFolder
  | fetched
  | wroteMeta
  | extracted
deriving DecidableEq, Repr

/-- The metadata dict `sync_day` persists after a download: the three
remote fields plus `synced_utc`. -/
def savedMeta (remote : MetaDict) (now : String) : MetaDict :=
  fun s =>
    if s = "last_modified_utc" ∨ s = "etag" ∨ s = "content_length" then remote s
    else if s = "synced_utc" then some now
    else none

/-- The extraction phase of `sync_day` (the body under
`if not tif_path(...).exists()` once a `.zip` with content `z` is on
disk): `expand_zip`, then either the verification failure report (the
archive is kept) or the post-extraction `.zip` removal. -/
def extractPhase (cfg : SyncCfg) (env : SyncEnv) (st : DayState) (z : ℕ)
    (effs : List SyncEffect) : DayState × List SyncEffect × Except ℕ Unit :=
  let tifOk := env.zipHasTif z
  let st2 : DayState := { st with folderExists := true, folderTif := tifOk }
  if cfg.verify_tif ∧ ¬tifOk then
    -- "[ERR ] extraction failed — .tif not found."; the zip is kept
    (st2, effs ++ [.extracted], .ok ())
  else if cfg.delete_zip_after_extract ∧ st2.zip.isSome then
    ({ st2 with zip := none }, effs ++ [.extracted, .deletedZip], .ok ())
  else (st2, effs ++ [.extracted], .ok ())

/-- Embedding of `sync_day(cfg, d)`: probe the remote (404 is a silent
skip), refresh the archive and sidecar when `needs_update_by_meta` says
so (deleting the stale archive, sidecar and folder first), then — when
extraction is enabled — ensure a decoded `.tif` exists, re-downloading
the archive if it is gone, and apply the `.zip` retention rules. The
returned triple is the final on-disk state, the effect log, and `ok` or
the raised error. -/
def sync_day (cfg : SyncCfg) (env : SyncEnv) (st : DayState) :
    DayState × List SyncEffect × Except ℕ Unit :=
  match env.remote with
  | .error e => (st, [], .error e)
  | .ok none => (st, [], .ok ())  -- "[SKIP] not found online."
  | .ok (some remote) =>
    let update_needed := needs_update_by_meta st.meta (some remote) cfg.compare_fields
    let refresh : DayState × List SyncEffect × Except ℕ Unit :=
      if update_needed then
        let delEffs :=
          (if st.zip.isSome then [SyncEffect.deletedZip] else [])
          ++ (if st.meta.isSome then [SyncEffect.deletedMeta] else [])
          ++ (if st.folderExists then [SyncEffect.deletedFolder] else [])
        match env.fetchZip with
        | .error e => (⟨none, none, false, false⟩, delEffs ++ [.fetched], .error e)
        | .ok z =>
          (⟨some z, some (savedMeta remote env.now), false, false⟩,
           delEffs ++ [.fetched, .wroteMeta], .ok ())
      else (st, [], .ok ())
    match refresh with
    | (st1, effs, .error e) => (st1, effs, .error e)
    | (st1, effs, .ok _) =>
      if cfg.extract then
        if ¬ st1.folderTif then
          match st1.zip with
          | some z => extractPhase cfg env st1 z effs
          | none =>
            match env.fetchZip with
            | .error e => (st1, effs ++ [.fetched], .error e)
            | .ok z =>
              extractPhase cfg env
                { st1 with zip := some z, meta := some (savedMeta remote env.now) }
                z (effs ++ [.fetched, .wroteMeta])
        else
          if cfg.delete_zip_after_extract ∧ st1.zip.isSome ∧ ¬update_needed then
            ({ st1 with zip := none }, effs ++ [.deletedZip], .ok ())
          else (st1, effs, .ok ())
      else (st1, effs, .ok ())

/-! ## Theorems -/

/-- Claim C1, as stated, is false at one corner: with no local
fingerprint and a remote probe that reported not-found,
`needs_update_by_meta` returns `false` (the not-found check runs first),
while the claim's "returns true if no local fingerprint exists" demands
`true` there. -/
theorem needs_update_C1_counterexample :
    needs_update_by_meta none none ["etag", "last_modified_utc", "content_length"] = false
    ∧ ¬ (∀ (remote_meta : Option MetaDict) (fields : List String),
          needs_update_by_meta none remote_meta fields = true) := by
  refine ⟨rfl, fun h => ?_⟩
  have := h none ["etag"]
  simp [needs_update_by_meta] at this

/-- Claim C1 (amended): `needs_update_by_meta` returns `false` whenever
the remote probe reported not-found (this takes precedence); otherwise
it returns `true` if no local fingerprint exists; when both fingerprints
are present it is `false` iff every configured field matches exactly,
and changing any single configured field of a matching remote flips it
to `true`. -/
theorem needs_update_by_meta_correct (lm rm : MetaDict) (fields : List String) :
    (∀ l : Option MetaDict, needs_update_by_meta l none fields = false)
    ∧ needs_update_by_meta none (some rm) fields = true
    ∧ (needs_update_by_meta (some lm) (some rm) fields = false ↔
        ∀ f ∈ fields, rm f = lm f)
    ∧ (∀ f v, f ∈ fields → v ≠ lm f →
        needs_update_by_meta (some lm) (some (lm.set f v)) fields = true) := by
  refine ⟨fun l => rfl, rfl, ?_, ?_⟩
  · simp [needs_update_by_meta, List.any_eq_false]
  · intro f v hf hv
    simp only [needs_update_by_meta, List.any_eq_true]
    exact ⟨f, hf, by simp [MetaDict.set, hv]⟩

/-- Concrete instance of the amended claim C1: flipping the `etag` field
of a matching remote fingerprint makes an update needed. -/
theorem needs_update_by_meta_correct_witness :
    needs_update_by_meta (some metaEx) (some (metaEx.set "etag" (some "zzz"))) ["etag"] = true :=
  (needs_update_by_meta_correct metaEx metaEx ["etag"]).2.2.2 "etag" (some "zzz")
    (by simp) (by simp [metaEx])

/-- Claim C8: when the remote metadata probe reports not-found,
`sync_day` performs no effect at all — no deletion, no fetch, no
extraction — returns without error, and leaves the local files for that
date exactly as they were. -/
theorem sync_day_skip_on_not_found (cfg : SyncCfg) (env : SyncEnv) (st : DayState)
    (h : env.remote = .ok none) :
    sync_day cfg env st = (st, [], .ok ()) := by
  unfold sync_day
  rw [h]

/-- A concrete configuration for the C8 witness. -/
def cfgEx : SyncCfg :=
  ⟨["etag", "last_modified_utc", "content_length"], true, true, true⟩

/-- A concrete environment whose remote probe reports 404. -/
def envEx : SyncEnv := ⟨.ok none, .ok 42, fun _ => true, "2025-01-01T00:00:00+00:00"⟩

/-- A concrete local state with all files present for the date. -/
def stEx : DayState := ⟨some 7, some metaEx, true, true⟩

/-- Concrete instance of claim C8: a fully populated local date survives
a 404 probe untouched, with an empty effect log. -/
theorem sync_day_skip_on_not_found_witness :
    sync_day cfgEx envEx stEx = (stEx, [], .ok ()) :=
  sync_day_skip_on_not_found cfgEx envEx stEx rfl

/-- Claim C9: static attribute sampling rounds each grid-cell centre
coordinate to one decimal place and looks it up in the static attribute
index; an unmatched coordinate yields missing (`none`) elevation, slope
and soil depth — never a fabricated 0 — with `deep_soil_flag = 0`; a
matched coordinate gets the indexed triple and a flag of 1 exactly when
soil depth is at least 200. -/
theorem sample_static_attributes_correct
    (static_index : PredictDailyTriple.StaticIndex) (coords : List (ℚ × ℚ)) :
    (PredictDailyTriple._sample_static_attributes static_index coords).length = coords.length
    ∧ (∀ i c, coords.get? i = some c →
        (static_index (PredictDailyTriple.pyRound1 c.1, PredictDailyTriple.pyRound1 c.2) = none →
          (PredictDailyTriple._sample_static_attributes static_index coords).get? i =
            some ⟨none, none, none, 0⟩)
        ∧ (∀ e s so,
            static_index (PredictDailyTriple.pyRound1 c.1, PredictDailyTriple.pyRound1 c.2) =
                some (e, s, so) →
            (PredictDailyTriple._sample_static_attributes static_index coords).get? i =
              some ⟨some e, some s, some so, if 200 ≤ so then 1 else 0⟩)) := by
  constructor
  · simp [PredictDailyTriple._sample_static_attributes]
  · intro i c hc
    obtain ⟨a, b⟩ := c
    rw [List.get?_eq_getElem?] at hc
    constructor
    · intro hmiss
      simp [PredictDailyTriple._sample_static_attributes, List.get?_eq_getElem?,
        List.getElem?_map, hc, hmiss]
    · intro e s so hhit
      simp [PredictDailyTriple._sample_static_attributes, List.get?_eq_getElem?,
        List.getElem?_map, hc, hhit]

/-- A concrete static index with a single entry at rounded key
`(1, 2)`, deep soil. -/
def staticIndexEx : PredictDailyTriple.StaticIndex :=
  fun k => if k = ((1 : ℚ), (2 : ℚ)) then some (10, 20, 250) else none

/-- Concrete instance of claim C9: the coordinate `(0.97, 2.04)` rounds
to `(1.0, 2.0)` and matches (deep soil, flag 1), while `(5, 5)` has no
match and yields the all-missing row with flag 0. -/
theorem sample_static_attributes_correct_witness :
    (PredictDailyTriple._sample_static_attributes staticIndexEx
        [(97 / 100, 51 / 25), (5, 5)]).get? 0 =
      some ⟨some 10, some 20, some 250, 1⟩
    ∧ (PredictDailyTriple._sample_static_attributes staticIndexEx
        [(97 / 100, 51 / 25), (5, 5)]).get? 1 =
      some ⟨none, none, none, 0⟩ := by
  have h := sample_static_attributes_correct staticIndexEx [(97 / 100, 51 / 25), (5, 5)]
  have hr1 : PredictDailyTriple.pyRound1 (97 / 100) = 1 := by
    norm_num [PredictDailyTriple.pyRound1, PredictDailyTriple.roundHalfEven]
  have hr2 : PredictDailyTriple.pyRound1 (51 / 25) = 2 := by
    norm_num [PredictDailyTriple.pyRound1, PredictDailyTriple.roundHalfEven]
  have hr5 : PredictDailyTriple.pyRound1 (5 : ℚ) = 5 := by
    norm_num [PredictDailyTriple.pyRound1, PredictDailyTriple.roundHalfEven]
  constructor
  · have := ((h.2 0 (97 / 100, 51 / 25) rfl).2 10 20 250 (by
      simp [staticIndexEx, hr1, hr2]))
    simpa using this
  · have := (h.2 1 (5, 5) rfl).1 (by
      simp [staticIndexEx, hr5])
    simpa using this

/-- The Buncombe county feature (`GEOID == "37021"`) with an opaque
geometry. -/
def countyEx : PredictDailyTriple.CountyFeature := ⟨"37021", 0⟩

/-- Claim C7, as stated, is false on the zero-overlap side: with the
shapefile present and the county polygon found, a rasterization with
zero overlap produces an all-false mask, and `_build_mask` returns it as
a normal `ok` result (an empty mask with zero true cells), not a hard
error. -/
theorem build_mask_C7_counterexample :
    PredictDailyTriple._build_mask true [countyEx]
        (fun _ => [[false, false], [false, false]]) =
      .ok [[false, false], [false, false]]
    ∧ PredictDailyTriple.maskCount [[false, false], [false, false]] = 0 := by
  constructor
  · rfl
  · rfl

/-- Claim C7 (amended): `_build_mask` rasterizes the region polygon
against the reference grid; a missing shapefile or an absent
`GEOID == "37021"` polygon is a hard error, but the rasterized mask is
returned as-is, so a zero-overlap polygon yields an all-false mask as a
normal (empty) result. `_load_mask` in app/rainfall_features.py never
errors at all: a missing shapefile or polygon falls back to the all-true
mask, and otherwise the rasterized mask is returned as-is. -/
theorem build_mask_correct (counties : List PredictDailyTriple.CountyFeature)
    (rasterize : ℕ → PredictDailyTriple.Mask) (h w : ℕ) :
    PredictDailyTriple._build_mask false counties rasterize = .error .shapefileMissing
    ∧ (counties.filter (fun c => c.geoid == "37021") = [] →
        PredictDailyTriple._build_mask true counties rasterize = .error .polygonNotFound)
    ∧ (∀ c rest, counties.filter (fun c => c.geoid == "37021") = c :: rest →
        PredictDailyTriple._build_mask true counties rasterize = .ok (rasterize c.geom))
    ∧ RainfallFeatures._load_mask false counties rasterize h w =
        List.replicate h (List.replicate w true)
    ∧ (counties.filter (fun c => c.geoid == "37021") = [] →
        RainfallFeatures._load_mask true counties rasterize h w =
          List.replicate h (List.replicate w true))
    ∧ (∀ c rest, counties.filter (fun c => c.geoid == "37021") = c :: rest →
        RainfallFeatures._load_mask true counties rasterize h w = rasterize c.geom) := by
  refine ⟨rfl, ?_, ?_, rfl, ?_, ?_⟩
  · intro hfil
    simp [PredictDailyTriple._build_mask, hfil]
  · intro c rest hfil
    simp [PredictDailyTriple._build_mask, hfil]
  · intro hfil
    simp [RainfallFeatures._load_mask, hfil]
  · intro c rest hfil
    simp [RainfallFeatures._load_mask, hfil]

/-- Concrete instance of the amended claim C7: the missing-polygon case
raises in `_build_mask`. -/
theorem build_mask_correct_witness :
    PredictDailyTriple._build_mask true [] (fun _ => []) = .error .polygonNotFound :=
  (build_mask_correct [] (fun _ => []) 0 0).2.1 rfl

namespace PredictDailyTriple

/-- Modelled from the spec's words: the trailing `min(N, window length)`
layers of the stack, for comparison against the code's `_subset`. -/
def specTrailingSlice (stack : CellStack) (n : ℕ) : CellStack :=
  stack.drop (stack.length - min n stack.length)

/-- Modelled from the spec's words: the missing-value-aware sum over the
trailing slice (a missing value is ignorable, contributing zero). -/
def specMissingAwareSum (stack : CellStack) (n : ℕ) : ℚ :=
  ((specTrailingSlice stack n).map (fun x => x.getD 0)).sum

/-- Modelled from the spec's words: `out` is the missing-value-aware
maximum over the trailing slice — missing iff the entire slice is
missing (never manufacturing a zero), otherwise the greatest present
value. -/
def specMissingAwareMax (stack : CellStack) (n : ℕ) (out : Option ℚ) : Prop :=
  (out = none ↔ ∀ x ∈ specTrailingSlice stack n, x = none)
  ∧ ∀ m : ℚ, out = some m ↔
      (some m ∈ specTrailingSlice stack n
       ∧ ∀ v : ℚ, some v ∈ specTrailingSlice stack n → v ≤ m)

theorem _subset_eq_spec (stack : CellStack) (n : ℕ) :
    _subset stack n = specTrailingSlice stack n := by
  unfold _subset specTrailingSlice
  by_cases h : n ≤ stack.length
  · rw [if_pos h, min_eq_left h]
  · rw [if_neg h, min_eq_right (le_of_not_le h), Nat.sub_self, List.drop_zero]

theorem nanmax_eq_maxQuestion (l : CellStack) : nanmax l = (l.filterMap id).max? := by
  unfold nanmax
  cases l.filterMap id <;> rfl

theorem rat_max_eq_some_iff (l : List ℚ) (m : ℚ) :
    l.max? = some m ↔ m ∈ l ∧ ∀ b ∈ l, b ≤ m := by
  haveI anti : Std.Antisymm (fun x1 x2 : ℚ => x1 ≤ x2) :=
    ⟨fun hab hba => le_antisymm hab hba⟩
  exact List.max?_eq_some_iff (fun a => le_refl a) (fun a b => max_choice a b)
    (fun a b c => max_le_iff)

theorem nanmax_eq_none_iff (l : CellStack) :
    nanmax l = none ↔ ∀ x ∈ l, x = none := by
  rw [nanmax_eq_maxQuestion, List.max?_eq_none_iff, List.filterMap_eq_nil_iff]
  simp

theorem nanmax_eq_some_iff (l : CellStack) (m : ℚ) :
    nanmax l = some m ↔ some m ∈ l ∧ ∀ v : ℚ, some v ∈ l → v ≤ m := by
  rw [nanmax_eq_maxQuestion, rat_max_eq_some_iff]
  simp [List.mem_filterMap]

theorem specTrailingSlice_subset (stack : CellStack) (n : ℕ) :
    specTrailingSlice stack n ⊆ stack :=
  List.drop_subset _ _

theorem specTrailingSlice_ne_nil (stack : CellStack) (n : ℕ)
    (hs : stack ≠ []) (hn : 0 < n) : specTrailingSlice stack n ≠ [] := by
  have hlen : (specTrailingSlice stack n).length = min n stack.length := by
    unfold specTrailingSlice
    rw [List.length_drop]
    omega
  intro hnil
  rw [hnil] at hlen
  have := List.length_pos.mpr hs
  simp at hlen
  omega

end PredictDailyTriple

/-- Claim C2: at every cell, `_compute_rain_features` makes `R1d` the
newest layer; each `R-N-d` the missing-value-aware sum over the
trailing `min(N, window length)` layers; each `Max_Rainfall_N` the
missing-value-aware maximum over the same trailing slice, with an
all-missing slice evaluating to missing, not zero. In particular an
all-zero window gives `R30d = 0` and `Max_Rainfall_30day = 0`; an
all-missing window gives a missing `Max_Rainfall_30day`; and the window
`[2, 0, 5]` (oldest to newest) gives `R3d = 7`, `R1d = 5`,
`Max_Rainfall_3day = 5`. -/
theorem compute_rain_features_correct (stack : PredictDailyTriple.CellStack)
    (h : stack ≠ []) :
    (PredictDailyTriple._compute_rain_features stack).R1d = stack.getLast h
    ∧ (PredictDailyTriple._compute_rain_features stack).R3d =
        PredictDailyTriple.specMissingAwareSum stack 3
    ∧ (PredictDailyTriple._compute_rain_features stack).R7d =
        PredictDailyTriple.specMissingAwareSum stack 7
    ∧ (PredictDailyTriple._compute_rain_features stack).R30d =
        PredictDailyTriple.specMissingAwareSum stack 30
    ∧ PredictDailyTriple.specMissingAwareMax stack 3
        (PredictDailyTriple._compute_rain_features stack).Max_Rainfall_3day
    ∧ PredictDailyTriple.specMissingAwareMax stack 30
        (PredictDailyTriple._compute_rain_features stack).Max_Rainfall_30day
    ∧ ((∀ x ∈ stack, x = some 0) →
        (PredictDailyTriple._compute_rain_features stack).R30d = 0
        ∧ (PredictDailyTriple._compute_rain_features stack).Max_Rainfall_30day = some 0)
    ∧ ((∀ x ∈ stack, x = none) →
        (PredictDailyTriple._compute_rain_features stack).Max_Rainfall_30day = none)
    ∧ PredictDailyTriple._compute_rain_features [some 2, some 0, some 5] =
        ⟨some 5, 7, 7, 7, some 5, some 5⟩ := by
  have hmax : ∀ n : ℕ, PredictDailyTriple.specMissingAwareMax stack n
      (PredictDailyTriple._max_last stack n) := by
    intro n
    unfold PredictDailyTriple._max_last
    rw [PredictDailyTriple._subset_eq_spec]
    exact ⟨PredictDailyTriple.nanmax_eq_none_iff _,
      fun m => PredictDailyTriple.nanmax_eq_some_iff _ m⟩
  refine ⟨?_, ?_, ?_, ?_, hmax 3, hmax 30, ?_, ?_, ?_⟩
  · show stack.getLast?.join = stack.getLast h
    rw [List.getLast?_eq_getLast _ h]
    rfl
  · show PredictDailyTriple._sum_last stack 3 = _
    unfold PredictDailyTriple._sum_last PredictDailyTriple.nansum
    rw [PredictDailyTriple._subset_eq_spec]
    rfl
  · show PredictDailyTriple._sum_last stack 7 = _
    unfold PredictDailyTriple._sum_last PredictDailyTriple.nansum
    rw [PredictDailyTriple._subset_eq_spec]
    rfl
  · show PredictDailyTriple._sum_last stack 30 = _
    unfold PredictDailyTriple._sum_last PredictDailyTriple.nansum
    rw [PredictDailyTriple._subset_eq_spec]
    rfl
  · intro hz
    have hzslice : ∀ x ∈ PredictDailyTriple.specTrailingSlice stack 30, x = some 0 :=
      fun x hx => hz x (PredictDailyTriple.specTrailingSlice_subset stack 30 hx)
    constructor
    · show PredictDailyTriple._sum_last stack 30 = 0
      unfold PredictDailyTriple._sum_last PredictDailyTriple.nansum
      rw [PredictDailyTriple._subset_eq_spec]
      apply List.sum_eq_zero
      intro x hx
      obtain ⟨y, hy, rfl⟩ := List.mem_map.mp hx
      rw [hzslice y hy]
      rfl
    · show PredictDailyTriple._max_last stack 30 = some 0
      have hne := PredictDailyTriple.specTrailingSlice_ne_nil stack 30 h (by norm_num)
      obtain ⟨y, hy⟩ := List.exists_mem_of_ne_nil _ hne
      unfold PredictDailyTriple._max_last
      rw [PredictDailyTriple._subset_eq_spec]
      rw [PredictDailyTriple.nanmax_eq_some_iff]
      refine ⟨by rw [← hzslice y hy]; exact hy, ?_⟩
      intro v hv
      have := hzslice _ hv
      simp only [Option.some.injEq] at this
      rw [this]
  · intro hn
    show PredictDailyTriple._max_last stack 30 = none
    unfold PredictDailyTriple._max_last
    rw [PredictDailyTriple._subset_eq_spec]
    rw [PredictDailyTriple.nanmax_eq_none_iff]
    exact fun x hx => hn x (PredictDailyTriple.specTrailingSlice_subset stack 30 hx)
  · unfold PredictDailyTriple._compute_rain_features
      PredictDailyTriple._sum_last PredictDailyTriple._max_last
      PredictDailyTriple._subset PredictDailyTriple.nansum PredictDailyTriple.nanmax
    norm_num [List.filterMap]

/-- Concrete instance of claim C2: the all-zero one-layer window has a
zero 30-day sum and a zero (not missing) 30-day maximum. -/
theorem compute_rain_features_correct_witness :
    (PredictDailyTriple._compute_rain_features [some 0]).R30d = 0
    ∧ (PredictDailyTriple._compute_rain_features [some 0]).Max_Rainfall_30day = some 0 :=
  (compute_rain_features_correct [some 0] (by simp)).2.2.2.2.2.2.1 (by simp)

theorem find_greatest_le (r : ℤ) :
    ∀ l : List ℤ, l.Sorted (· < ·) →
    ∀ d0 ∈ l, d0 ≤ r →
    ∃ d, l.reverse.find? (fun day => decide (day ≤ r)) = some d
      ∧ d ∈ l ∧ d ≤ r ∧ ∀ x ∈ l, x ≤ r → x ≤ d := by
  intro l
  induction l with
  | nil => rintro - d0 hd0 -; cases hd0
  | cons a t ih =>
    intro hs d0 hd0 hle
    rw [List.sorted_cons] at hs
    obtain ⟨ha, hst⟩ := hs
    rw [List.reverse_cons, List.find?_append]
    by_cases hex : ∃ y ∈ t, y ≤ r
    · obtain ⟨y, hy, hyr⟩ := hex
      obtain ⟨d, hfind, hdmem, hdr, hdmax⟩ := ih hst y hy hyr
      rw [hfind]
      refine ⟨d, rfl, List.mem_cons_of_mem a hdmem, hdr, ?_⟩
      intro x hx hxr
      rcases List.mem_cons.mp hx with rfl | hxt
      · exact le_of_lt (ha d hdmem)
      · exact hdmax x hxt hxr
    · push_neg at hex
      have hnone : t.reverse.find? (fun day => decide (day ≤ r)) = none := by
        rw [List.find?_eq_none]
        intro x hx
        rw [List.mem_reverse] at hx
        simpa using hex x hx
      have har : a ≤ r := by
        rcases List.mem_cons.mp hd0 with rfl | hd0t
        · exact hle
        · exact absurd hle (not_le.mpr (hex d0 hd0t))
      rw [hnone]
      refine ⟨a, ?_, List.mem_cons_self a t, har, ?_⟩
      · simp [List.find?, har]
      · intro x hx hxr
        rcases List.mem_cons.mp hx with rfl | hxt
        · exact le_rfl
        · exact absurd hxr (not_le.mpr (hex x hxt))

/-- Claim C3: over a sorted list of locally available raster dates,
`resolve_target_date` fails (raises) exactly on the empty store;
when the requested date precedes the earliest available date it returns
that earliest date; otherwise it returns the latest available date that
is at most the requested one. `available_dates` always produces such a
sorted list. -/
theorem resolve_target_date_correct (dates : List ℤ) (requested : ℤ)
    (hs : dates.Sorted (· < ·)) :
    (dates = [] → resolve_target_date dates requested = none)
    ∧ (∀ d0 rest, dates = d0 :: rest → requested < d0 →
        resolve_target_date dates requested = some d0)
    ∧ (∀ d0 rest, dates = d0 :: rest → d0 ≤ requested →
        ∃ d, resolve_target_date dates requested = some d ∧ d ∈ dates
          ∧ d ≤ requested ∧ ∀ x ∈ dates, x ≤ requested → x ≤ d)
    ∧ (∀ s : Store, (available_dates s).Sorted (· < ·)) := by
  refine ⟨?_, ?_, ?_, ?_⟩
  · rintro rfl
    rfl
  · rintro d0 rest rfl hlt
    rw [resolve_target_date, if_pos hlt]
  · rintro d0 rest rfl hle
    obtain ⟨d, hfind, hdmem, hdr, hdmax⟩ :=
      find_greatest_le requested (d0 :: rest) hs d0 (List.mem_cons_self d0 rest) hle
    refine ⟨d, ?_, hdmem, hdr, hdmax⟩
    rw [resolve_target_date, if_neg (not_lt.mpr hle), hfind]
  · intro s
    apply List.Sorted.lt_of_le
    · exact List.sorted_insertionSort _ _
    · exact ((List.perm_insertionSort _ _).nodup_iff).mpr (List.nodup_dedup _)

/-- Concrete instance of claim C3: with dates `{5, 10}` available,
requesting day 7 resolves to day 5, the latest available date not after
the request. -/
theorem resolve_target_date_correct_witness :
    resolve_target_date [5, 10] 7 = some 5 := by
  obtain ⟨d, hres, hmem, hdle, -⟩ :=
    (resolve_target_date_correct [5, 10] 7
      (by norm_num [List.sorted_cons])).2.2.1 5 [10] rfl (by norm_num)
  have hd : d = 5 ∨ d = 10 := by simpa using hmem
  have h5 : d = 5 := by omega
  rw [h5] at hres
  exact hres

namespace PredictDailyTriple

/-- The fixed three-tier lookup order of `_resolve_day_path`: a
non-empty extracted folder wins, else the archive-internal path, else
the bare `.tif`, else absent. -/
def resolveDayPathSpec (s : Store) (day : ℤ) : Prop :=
  ((dayFiles s day).folderExists = true ∧ (dayFiles s day).folderTifs ≠ [] →
      ∃ t, _resolve_day_path s day = some (.folderTif day t))
  ∧ (¬ ((dayFiles s day).folderExists = true ∧ (dayFiles s day).folderTifs ≠ []) →
      (dayFiles s day).zipExists = true →
      _resolve_day_path s day = some (.zipMemberStamped day))
  ∧ (¬ ((dayFiles s day).folderExists = true ∧ (dayFiles s day).folderTifs ≠ []) →
      (dayFiles s day).zipExists = false → (dayFiles s day).bareTif = true →
      _resolve_day_path s day = some (.bareTif day))
  ∧ (¬ ((dayFiles s day).folderExists = true ∧ (dayFiles s day).folderTifs ≠ []) →
      (dayFiles s day).zipExists = false → (dayFiles s day).bareTif = false →
      _resolve_day_path s day = none)

theorem resolveDayPathSpec_holds (s : Store) (day : ℤ) : resolveDayPathSpec s day := by
  unfold resolveDayPathSpec _resolve_day_path
  have hsortnil : ∀ l : List ℕ, l ≠ [] → l.insertionSort (· ≤ ·) ≠ [] := by
    intro l hl hnil
    exact hl (((List.perm_insertionSort (· ≤ ·) l).symm.trans (hnil ▸ List.Perm.refl _)).eq_nil)
  refine ⟨?_, ?_, ?_, ?_⟩
  · rintro ⟨hfe, hft⟩
    rcases hsort : (dayFiles s day).folderTifs.insertionSort (· ≤ ·) with - | ⟨t, ts⟩
    · exact absurd hsort (hsortnil _ hft)
    · exact ⟨t, by simp [hfe, hsort]⟩
  · intro hno hz
    rcases hfe : (dayFiles s day).folderExists with - | -
    · simp [hfe, hz]
    · have hft : (dayFiles s day).folderTifs = [] := by
        by_contra hne
        exact hno ⟨hfe, hne⟩
      simp [hfe, hft, hz]
  · intro hno hz hb
    rcases hfe : (dayFiles s day).folderExists with - | -
    · simp [hfe, hz, hb]
    · have hft : (dayFiles s day).folderTifs = [] := by
        by_contra hne
        exact hno ⟨hfe, hne⟩
      simp [hfe, hft, hz, hb]
  · intro hno hz hb
    rcases hfe : (dayFiles s day).folderExists with - | -
    · simp [hfe, hz, hb]
    · have hft : (dayFiles s day).folderTifs = [] := by
        by_contra hne
        exact hno ⟨hfe, hne⟩
      simp [hfe, hft, hz, hb]

end PredictDailyTriple

/-- A store holding exactly one date, day 10, as a bare `.tif`. -/
def exStoreC4 : Store := [⟨10, false, [], false, [], true, false⟩]

/-- Claim C4, as stated, is false: `_collect_day_paths` resolves the
requested date first, so with only day 10 available, requesting day 20
with a window of 3 yields entries for days `[8, 9, 10]`, not the claimed
`[d - N + 1, ..., d] = [18, 19, 20]`. -/
theorem collect_day_paths_C4_counterexample :
    (PredictDailyTriple._collect_day_paths exStoreC4 20 3).map (fun l => l.map Prod.fst)
      = some [8, 9, 10]
    ∧ ([8, 9, 10] : List ℤ) ≠ [20 - 3 + 1, 20 - 1, 20] := by
  constructor
  · decide
  · decide

/-- Claim C4 (amended): with `r` the resolved target date (equal to the
requested date whenever that date is itself available),
`_collect_day_paths(d, N)` returns exactly N entries, oldest first,
covering the consecutive calendar days `r - N + 1` through `r`
inclusive, regardless of how many are absent; each entry's path comes
from the fixed three-tier lookup (extracted folder, archive-internal
path, bare raster file), and is absent only when all three miss. -/
theorem collect_day_paths_correct (s : Store) (target : ℤ) (window : ℕ)
    (resolved : ℤ)
    (hres : resolve_target_date (available_dates s) target = some resolved) :
    ∃ entries, PredictDailyTriple._collect_day_paths s target window = some entries
      ∧ entries.length = window
      ∧ (∀ i : ℕ, i < window →
          entries.get? i = some (resolved - window + 1 + i,
            PredictDailyTriple._resolve_day_path s (resolved - window + 1 + i)))
      ∧ (∀ day : ℤ, PredictDailyTriple.resolveDayPathSpec s day) := by
  refine ⟨(List.range window).map (fun i =>
      let day := resolved - ((window - 1 - i : ℕ) : ℤ)
      (day, PredictDailyTriple._resolve_day_path s day)), ?_, ?_, ?_,
      fun day => PredictDailyTriple.resolveDayPathSpec_holds s day⟩
  · rw [PredictDailyTriple._collect_day_paths, hres]
  · simp
  · intro i hi
    rw [List.get?_map, List.get?_range hi]
    have harith : resolved - ((window - 1 - i : ℕ) : ℤ) = resolved - window + 1 + i := by
      omega
    simp only [Option.map_some']
    rw [harith]

/-- Concrete instance of the amended claim C4: with only day 10
available, requesting day 20 with window 3 gives exactly 3 entries, the
oldest being day 8 and the newest day 10 (present as a bare file). -/
theorem collect_day_paths_correct_witness :
    ∃ entries, PredictDailyTriple._collect_day_paths exStoreC4 20 3 = some entries
      ∧ entries.length = 3
      ∧ entries.get? 0 = some (8, PredictDailyTriple._resolve_day_path exStoreC4 8) := by
  obtain ⟨entries, h1, h2, h3, -⟩ :=
    collect_day_paths_correct exStoreC4 20 3 10 (by decide)
  refine ⟨entries, h1, h2, ?_⟩
  have := h3 0 (by norm_num)
  simpa using this

namespace PredictDailyTriple

theorem whereTrueRow_length (i : ℕ) : ∀ (j : ℕ) (row : List Bool),
    (whereTrueRow i j row).length = row.count true := by
  intro j row
  induction row generalizing j with
  | nil => rfl
  | cons b bs ih =>
    cases b <;> simp [whereTrueRow, ih, List.count_cons]

theorem whereTrueFrom_length : ∀ (i : ℕ) (m : Mask),
    (whereTrueFrom i m).length = maskCount m := by
  intro i m
  induction m generalizing i with
  | nil => rfl
  | cons row rest ih =>
    show (whereTrueRow i 0 row ++ whereTrueFrom (i + 1) rest).length = _
    rw [List.length_append, whereTrueRow_length, ih (i + 1)]
    simp [maskCount]

theorem mem_whereTrueRow (i : ℕ) : ∀ (j : ℕ) (row : List Bool) (r c : ℕ),
    ((r, c) ∈ whereTrueRow i j row) ↔
      r = i ∧ j ≤ c ∧ row[c - j]? = some true := by
  intro j row
  induction row generalizing j with
  | nil => intro r c; simp [whereTrueRow]
  | cons b bs ih =>
    intro r c
    simp only [whereTrueRow, List.mem_append]
    rw [ih (j + 1) r c]
    constructor
    · rintro (hhd | ⟨rfl, hjc, hget⟩)
      · cases b with
        | false => simp at hhd
        | true =>
          simp at hhd
          obtain ⟨rfl, rfl⟩ := hhd
          exact ⟨rfl, le_rfl, by simp⟩
      · refine ⟨rfl, by omega, ?_⟩
        have hcj : c - j = (c - (j + 1)) + 1 := by omega
        rw [hcj, List.getElem?_cons_succ]
        exact hget
    · rintro ⟨rfl, hjc, hget⟩
      by_cases hcj : c = j
      · subst hcj
        have h0 : c - c = 0 := by omega
        rw [h0, List.getElem?_cons_zero] at hget
        have hb : b = true := by simpa using hget
        subst hb
        left
        simp
      · right
        refine ⟨rfl, by omega, ?_⟩
        have hsk : c - j = (c - (j + 1)) + 1 := by omega
        rw [hsk, List.getElem?_cons_succ] at hget
        exact hget

theorem mem_whereTrueFrom : ∀ (i : ℕ) (m : Mask) (r c : ℕ),
    ((r, c) ∈ whereTrueFrom i m) ↔
      (i ≤ r ∧ ∃ row, m[r - i]? = some row ∧ row[c]? = some true) := by
  intro i m
  induction m generalizing i with
  | nil => intro r c; simp [whereTrueFrom]
  | cons row rest ih =>
    intro r c
    simp only [whereTrueFrom, List.mem_append]
    rw [mem_whereTrueRow i 0 row r c, ih (i + 1) r c]
    constructor
    · rintro (⟨rfl, -, hget⟩ | ⟨hir, row', hrow, hcell⟩)
      · refine ⟨le_rfl, row, ?_, by simpa using hget⟩
        have h0 : r - r = 0 := by omega
        rw [h0, List.getElem?_cons_zero]
      · refine ⟨by omega, row', ?_, hcell⟩
        have hsk : r - i = (r - (i + 1)) + 1 := by omega
        rw [hsk, List.getElem?_cons_succ]
        exact hrow
    · rintro ⟨hir, row', hrow, hcell⟩
      by_cases hri : r = i
      · subst hri
        left
        have h0 : r - r = 0 := by omega
        rw [h0, List.getElem?_cons_zero] at hrow
        obtain rfl : row = row' := by simpa using hrow
        exact ⟨rfl, Nat.zero_le c, by simpa using hcell⟩
      · right
        refine ⟨by omega, row', ?_, hcell⟩
        have hsk : r - i = (r - (i + 1)) + 1 := by omega
        rw [hsk, List.getElem?_cons_succ] at hrow
        exact hrow

theorem whereTrueRow_bounds_pairwise (i : ℕ) : ∀ (j : ℕ) (row : List Bool),
    (∀ p ∈ whereTrueRow i j row, p.1 = i ∧ j ≤ p.2)
    ∧ List.Pairwise (fun a b : ℕ × ℕ => a.2 < b.2) (whereTrueRow i j row) := by
  intro j row
  induction row generalizing j with
  | nil => simp [whereTrueRow]
  | cons b bs ih =>
    obtain ⟨ihmem, ihpw⟩ := ih (j + 1)
    constructor
    · intro p hp
      rcases List.mem_append.mp hp with hl | hr
      · cases b with
        | false => simp at hl
        | true =>
          simp at hl
          obtain ⟨h1, h2⟩ := hl
          omega
      · obtain ⟨h1, h2⟩ := ihmem p hr
        exact ⟨h1, by omega⟩
    · simp only [whereTrueRow]
      rw [List.pairwise_append]
      refine ⟨?_, ihpw, ?_⟩
      · cases b <;> simp
      · intro a ha b' hb'
        cases b with
        | false => simp at ha
        | true =>
          simp at ha
          obtain ⟨h1, h2⟩ := ha
          have hb2 := (ihmem b' hb').2
          omega

theorem whereTrueFrom_bounds_pairwise : ∀ (i : ℕ) (m : Mask),
    (∀ p ∈ whereTrueFrom i m, i ≤ p.1)
    ∧ List.Pairwise (fun a b : ℕ × ℕ => a.1 < b.1 ∨ (a.1 = b.1 ∧ a.2 < b.2))
        (whereTrueFrom i m) := by
  intro i m
  induction m generalizing i with
  | nil => simp [whereTrueFrom]
  | cons row rest ih =>
    obtain ⟨ihmem, ihpw⟩ := ih (i + 1)
    obtain ⟨rowmem, rowpw⟩ := whereTrueRow_bounds_pairwise i 0 row
    constructor
    · intro p hp
      rcases List.mem_append.mp hp with hl | hr
      · exact (rowmem p hl).1.ge
      · exact le_of_lt (Nat.lt_of_lt_of_le (Nat.lt_succ_self i) (ihmem p hr))
    · simp only [whereTrueFrom]
      rw [List.pairwise_append]
      refine ⟨?_, ihpw, ?_⟩
      · apply rowpw.imp_of_mem
        intro a b' ha hb' hlt
        exact Or.inr ⟨(rowmem a ha).1.trans (rowmem b' hb').1.symm, hlt⟩
      · intro a ha b' hb'
        left
        have h1 := (rowmem a ha).1
        have h2 := ihmem b' hb'
        omega

end PredictDailyTriple

/-- Claim C6: the feature table emits exactly one row per true cell of
the region mask, in row-major order: the row count equals the mask's
true-cell count; the rows' `(row, col)` indices are exactly `np.where`
of the mask; a cell appears iff it is a true in-mask cell (so no row
exists for an out-of-mask cell); the order is strictly row-major; and
there are no duplicates. -/
theorem predict_rows_correct {α : Type} (transform : ℚ × ℚ → ℚ × ℚ)
    (mask : PredictDailyTriple.Mask) (cellData : (ℕ × ℕ) → (ℚ × ℚ) → α) :
    (PredictDailyTriple.predictRows transform mask cellData).length =
        PredictDailyTriple.maskCount mask
    ∧ (PredictDailyTriple.predictRows transform mask cellData).map
        (fun fr => (fr.row, fr.col)) = PredictDailyTriple.npWhere mask
    ∧ (∀ r c : ℕ, ((r, c) ∈ PredictDailyTriple.npWhere mask ↔
        PredictDailyTriple.maskAt mask r c = true))
    ∧ List.Pairwise (fun a b : ℕ × ℕ => a.1 < b.1 ∨ (a.1 = b.1 ∧ a.2 < b.2))
        (PredictDailyTriple.npWhere mask)
    ∧ (PredictDailyTriple.npWhere mask).Nodup := by
  have hpw := (PredictDailyTriple.whereTrueFrom_bounds_pairwise 0 mask).2
  refine ⟨?_, ?_, ?_, hpw, ?_⟩
  · simp [PredictDailyTriple.predictRows, PredictDailyTriple._grid_centers,
      PredictDailyTriple.npWhere, PredictDailyTriple.whereTrueFrom_length]
  · rw [PredictDailyTriple.predictRows, PredictDailyTriple._grid_centers,
      List.map_map, List.map_map]
    exact List.map_id'' (fun rc => rfl) _
  · intro r c
    rw [PredictDailyTriple.npWhere, PredictDailyTriple.mem_whereTrueFrom 0 mask r c]
    unfold PredictDailyTriple.maskAt
    cases hrow : mask[r - 0]? with
    | none =>
      simp only [Nat.sub_zero] at hrow
      simp [hrow]
    | some row =>
      simp only [Nat.sub_zero] at hrow
      simp only [hrow]
      cases hcell : row[c]? with
      | none => simp [hcell]
      | some b => cases b <;> simp [hcell]
  · exact hpw.imp (by
      rintro ⟨a1, a2⟩ ⟨b1, b2⟩ h
      rcases h with h | ⟨h1, h2⟩ <;> simp <;> omega)

/-- A store whose only entry for day 5 is an extracted folder that
contains no `.tif` file at all. -/
def exStoreC10 : Store := [⟨5, true, [], false, [], false, false⟩]

/-- Claim C10: date availability is purely name-based — a date is
available iff some store entry for it has a folder, archive or bare
raster name, regardless of readable content. Consequently, for the
store whose day-5 entry is an extracted folder with no raster inside,
`resolve_target_date` succeeds and returns day 5 while the per-day path
lookup marks day 5 absent, so `_load_stack` raises its
file-not-found error for the very date `resolve_target_date` reported
available. -/
theorem availability_by_name_not_content :
    (∀ (s : Store) (d : ℤ),
        d ∈ available_dates s ↔ ∃ f ∈ s, f.day = d ∧ dayPresent f = true)
    ∧ available_dates exStoreC10 = [5]
    ∧ resolve_target_date (available_dates exStoreC10) 5 = some 5
    ∧ RainfallFeatures._resolve_day_path exStoreC10 5 = none
    ∧ (∀ (read : RasterPath → Except ℕ RainfallFeatures.Raster) (window : ℕ),
        RainfallFeatures._load_stack read exStoreC10 5 window =
          .error (.noRasterForTarget 5)) := by
  refine ⟨?_, by decide, by decide, by decide, ?_⟩
  · intro s d
    unfold available_dates
    rw [(List.perm_insertionSort _ _).mem_iff, List.mem_dedup, List.mem_map]
    constructor
    · rintro ⟨f, hf, rfl⟩
      rw [List.mem_filter] at hf
      exact ⟨f, hf.1, rfl, hf.2⟩
    · rintro ⟨f, hf, rfl, hp⟩
      exact ⟨f, List.mem_filter.mpr ⟨hf, hp⟩, rfl⟩
  · intro read window
    rfl

theorem retry_get_from_of_ge (fetch : ℕ → Except ℕ Resp) (backoff retries i : ℕ)
    (h : retries ≤ i) : retry_get_from fetch backoff retries i = ⟨[], 0, none⟩ := by
  rw [retry_get_from]
  exact dif_pos h

theorem retry_get_from_ok (fetch : ℕ → Except ℕ Resp) (backoff retries i : ℕ)
    (r : Resp) (h : i < retries) (hf : fetch i = .ok r) :
    retry_get_from fetch backoff retries i = ⟨[], 1, some (.ok r)⟩ := by
  rw [retry_get_from, dif_neg (by omega), hf]

theorem retry_get_from_error_last (fetch : ℕ → Except ℕ Resp) (backoff retries i : ℕ)
    (e : ℕ) (h : i < retries) (hlast : i = retries - 1) (hf : fetch i = .error e) :
    retry_get_from fetch backoff retries i = ⟨[], 1, some (.error e)⟩ := by
  rw [retry_get_from, dif_neg (by omega), hf]
  simp [hlast]

theorem retry_get_from_error_cont (fetch : ℕ → Except ℕ Resp) (backoff retries i : ℕ)
    (e : ℕ) (h : i < retries) (hlast : i ≠ retries - 1) (hf : fetch i = .error e) :
    retry_get_from fetch backoff retries i =
      ⟨backoff * (i + 1) :: (retry_get_from fetch backoff retries (i + 1)).sleeps,
       (retry_get_from fetch backoff retries (i + 1)).calls + 1,
       (retry_get_from fetch backoff retries (i + 1)).outcome⟩ := by
  rw [retry_get_from, dif_neg (by omega), hf]
  simp [hlast]

theorem retry_get_from_calls_le (fetch : ℕ → Except ℕ Resp) (backoff retries : ℕ) :
    ∀ n i, retries - i ≤ n →
      (retry_get_from fetch backoff retries i).calls ≤ retries - i := by
  intro n
  induction n with
  | zero =>
    intro i h
    rw [retry_get_from_of_ge fetch backoff retries i (by omega)]
    simp
  | succ n ih =>
    intro i h
    by_cases hle : retries ≤ i
    · rw [retry_get_from_of_ge fetch backoff retries i hle]
      simp
    · cases hf : fetch i with
      | ok r =>
        rw [retry_get_from_ok fetch backoff retries i r (by omega) hf]
        simp
        omega
      | error e =>
        by_cases hlast : i = retries - 1
        · rw [retry_get_from_error_last fetch backoff retries i e (by omega) hlast hf]
          simp
          omega
        · rw [retry_get_from_error_cont fetch backoff retries i e (by omega) hlast hf]
          have := ih (i + 1) (by omega)
          simp only
          omega

theorem retry_get_from_all_fail (fetch : ℕ → Except ℕ Resp) (backoff retries : ℕ)
    (errOf : ℕ → ℕ) :
    ∀ n i, retries - i = n + 1 →
      (∀ j, i ≤ j → j < retries → fetch j = .error (errOf j)) →
      retry_get_from fetch backoff retries i =
        ⟨(List.range n).map (fun t => backoff * (i + 1 + t)), n + 1,
          some (.error (errOf (retries - 1)))⟩ := by
  intro n
  induction n with
  | zero =>
    intro i hn hf
    have hi : i < retries := by omega
    have hlast : i = retries - 1 := by omega
    rw [retry_get_from_error_last fetch backoff retries i _ hi hlast (hf i le_rfl hi)]
    rw [hlast]
    simp
  | succ n ih =>
    intro i hn hf
    have hi : i < retries := by omega
    have hlast : i ≠ retries - 1 := by omega
    rw [retry_get_from_error_cont fetch backoff retries i _ hi hlast (hf i le_rfl hi)]
    rw [ih (i + 1) (by omega) (fun j hj hjr => hf j (by omega) hjr)]
    congr 1
    rw [List.range_succ_eq_map, List.map_cons, List.map_map]
    congr 1
    apply List.map_congr_left
    intro a _
    simp only [Function.comp_apply, Nat.succ_eq_add_one]
    ring

theorem retry_get_from_succeeds (fetch : ℕ → Except ℕ Resp) (backoff retries : ℕ)
    (errOf : ℕ → ℕ) (r : Resp) :
    ∀ n i k, k - i = n → i ≤ k → k < retries →
      (∀ j, i ≤ j → j < k → fetch j = .error (errOf j)) →
      fetch k = .ok r →
      retry_get_from fetch backoff retries i =
        ⟨(List.range n).map (fun t => backoff * (i + 1 + t)), n + 1, some (.ok r)⟩ := by
  intro n
  induction n with
  | zero =>
    intro i k hn hik hkr hf hok
    have : i = k := by omega
    subst this
    rw [retry_get_from_ok fetch backoff retries i r (by omega) hok]
    simp
  | succ n ih =>
    intro i k hn hik hkr hf hok
    have hi : i < retries := by omega
    have hik' : i < k := by omega
    have hlast : i ≠ retries - 1 := by omega
    rw [retry_get_from_error_cont fetch backoff retries i _ hi hlast (hf i le_rfl hik')]
    rw [ih (i + 1) k (by omega) (by omega) hkr (fun j hj hjk => hf j (by omega) hjk) hok]
    congr 1
    rw [List.range_succ_eq_map, List.map_cons, List.map_map]
    congr 1
    apply List.map_congr_left
    intro a _
    simp only [Function.comp_apply, Nat.succ_eq_add_one]
    ring

/-- A streamable 200 response carrying the bytes `[1, 2], [3]`. -/
def respEx : Resp := ⟨200, [[1, 2], [3]], true, 0⟩

/-- A fetch environment that fails transiently on the first two attempts
and succeeds on the third. -/
def fetchEx : ℕ → Except ℕ Resp := fun i => if i < 2 then .error 7 else .ok respEx

/-- Claim C5: `retry_get` calls the fetch at most `max_attempts` times;
when every attempt fails it sleeps `backoff * attempt_number` after each
failure except the last and re-raises the final failure unchanged; when
attempt `k` succeeds it returns that response after `k` backoff sleeps.
`download_zip` never changes the final archive name on any failure, and
on success leaves exactly the fully downloaded content under the final
name with no `.tmp` file remaining; in particular two transient failures
followed by a success within `max_attempts = 3` end with the correctly
named archive, no `.tmp` artifact, and sleeps of `backoff * 1` then
`backoff * 2`. -/
theorem retry_download_correct (fetch : ℕ → Except ℕ Resp) (retries backoff : ℕ)
    (errOf : ℕ → ℕ) (r : Resp) (k : ℕ) (fs : ZipFS) (b : ℕ) :
    (retry_get fetch retries backoff).calls ≤ retries
    ∧ (1 ≤ retries → (∀ j, j < retries → fetch j = .error (errOf j)) →
        retry_get fetch retries backoff =
          ⟨(List.range (retries - 1)).map (fun t => backoff * (t + 1)), retries,
            some (.error (errOf (retries - 1)))⟩)
    ∧ ((∀ j, j < k → fetch j = .error (errOf j)) → fetch k = .ok r → k < retries →
        retry_get fetch retries backoff =
          ⟨(List.range k).map (fun t => backoff * (t + 1)), k + 1, some (.ok r)⟩)
    ∧ (∀ e, (download_zip fetch retries backoff fs).2 = .error e →
        (download_zip fetch retries backoff fs).1.final = fs.final)
    ∧ (∀ content, (download_zip fetch retries backoff fs).2 = .ok content →
        (download_zip fetch retries backoff fs).1 = ⟨none, some content⟩)
    ∧ download_zip fetchEx 3 b fs = (⟨none, some [1, 2, 3]⟩, .ok [1, 2, 3])
    ∧ (retry_get fetchEx 3 b).sleeps = [b * 1, b * 2] := by
  have hscen : retry_get fetchEx 3 b =
      ⟨(List.range 2).map (fun t => b * (0 + 1 + t)), 3, some (.ok respEx)⟩ := by
    apply retry_get_from_succeeds fetchEx b 3 (fun _ => 7) respEx 2 0 2 rfl
      (by omega) (by omega)
    · intro j hj hjk
      simp [fetchEx, hjk]
    · simp [fetchEx]
  refine ⟨?_, ?_, ?_, ?_, ?_, ?_, ?_⟩
  · have := retry_get_from_calls_le fetch backoff retries retries 0 (by omega)
    simpa [retry_get] using this
  · intro h1 hall
    rw [retry_get, retry_get_from_all_fail fetch backoff retries errOf (retries - 1) 0
      (by omega) (fun j hj hjr => hall j hjr)]
    congr 1
    · apply List.map_congr_left
      intro a _
      ring
    · omega
  · intro hfail hok hk
    rw [retry_get, retry_get_from_succeeds fetch backoff retries errOf r k 0 k
      (by omega) (by omega) hk (fun j hj hjk => hfail j hjk) hok]
    congr 1
    apply List.map_congr_left
    intro a _
    ring
  · intro e he
    rcases houtcome : (retry_get fetch retries backoff).outcome with - | exc
    · simp [download_zip, houtcome] at he ⊢
    · rcases exc with e' | resp
      · simp [download_zip, houtcome] at he ⊢
      · by_cases hst : 400 ≤ resp.status
        · simp [download_zip, houtcome, hst] at he ⊢
        · by_cases hstream : resp.streamOk
          · simp [download_zip, houtcome, hst, hstream] at he
          · simp [download_zip, houtcome, hst, hstream] at he ⊢
  · intro content hc
    rcases houtcome : (retry_get fetch retries backoff).outcome with - | exc
    · simp [download_zip, houtcome] at hc
    · rcases exc with e' | resp
      · simp [download_zip, houtcome] at hc
      · by_cases hst : 400 ≤ resp.status
        · simp [download_zip, houtcome, hst] at hc
        · by_cases hstream : resp.streamOk
          · simp [download_zip, houtcome, hst, hstream] at hc ⊢
            simp [hc]
          · simp [download_zip, houtcome, hst, hstream] at hc
  · have ho : (retry_get fetchEx 3 b).outcome = some (.ok respEx) := by rw [hscen]
    simp [download_zip, ho, respEx]
  · have hsl : (retry_get fetchEx 3 b).sleeps =
        (List.range 2).map (fun t => b * (0 + 1 + t)) := by rw [hscen]
    rw [hsl]
    norm_num [List.range_succ]

/-- Concrete instance of claim C5: with two transient failures then a
success under `max_attempts = 3` and `backoff = 2`, the pre-existing
temporary file is gone, the full content sits under the final archive
name, and the download reports success. -/
theorem retry_download_correct_witness :
    download_zip fetchEx 3 2 ⟨some [9], some [7]⟩ =
      (⟨none, some [1, 2, 3]⟩, .ok [1, 2, 3]) :=
  (retry_download_correct fetchEx 3 2 (fun _ => 7) respEx 2 ⟨some [9], some [7]⟩ 2).2.2.2.2.2.1

end Buncombe
